import Mathlib

/-!
Shallow embedding of the schema/validation core of `src/ticdat/pandatfactory.py`
(class `PanDatFactory` and the inner `PanDat` data containers), together with
proofs about its validation and repair algorithms.

Tables are ordered lists of rows; a row maps column names to scalar cell
values.  Numbers are modelled as rationals.  pandas renders both `None` and
`nan` as one null sentinel (and `find_data_type_failures` normalizes `nan`
back to `None` before type checking), so the model uses a single `null`
constructor for absence.
-/

/-- Scalar cell values of a table. -/
inductive Value where
  | null : Value
  | num : ℚ → Value
  | str : String → Value
deriving DecidableEq

/-- A row maps column names to cell values (spec §9: named-field record). -/
abbrev Row : Type := String → Value

/-- A table is an ordered list of rows (the data of a pandas DataFrame). -/
abbrev Table : Type := List Row

/-- A PanDat dataset: one table per table name (`getattr(pan_dat, t)`). -/
abbrev PanDat : Type := String → Table

/-- A foreign-key declaration as stored by `add_foreign_key`: native (child)
table, foreign (parent) table, and the (native_field, foreign_field) pairs. -/
structure FkDecl where
  native : String
  foreign : String
  mapping : List (String × String)
deriving DecidableEq

/-- Source `drop_duplicates` with keep-first on the key `k`: a row is kept iff no
earlier row (nor a key in `seen`) carries the same key value. -/
def dropDupBy (k : Row → List Value) : Table → List (List Value) → Table
  | [], _ => []
  | r :: rs, seen =>
    if k r ∈ seen then dropDupBy k rs seen else r :: dropDupBy k rs (k r :: seen)

/-- Pointwise update of one column of a row. -/
def updateField (r : Row) (f : String) (v : Value) : Row :=
  fun g => if g = f then v else r g

/-- The sequential column copies `parent[native_field] = parent[foreign_field]`,
performed one mapping pair at a time in mapping order, exactly as in the loop of
`_find_foreign_key_failure_rows`. -/
def renameRow (ms : List (String × String)) (r : Row) : Row :=
  ms.foldl (fun acc m => updateField acc m.1 (acc m.2)) r

/-- The native-side key of a row: its values at the native mapped fields
(the join index `new_index`). -/
def natKey (ms : List (String × String)) (r : Row) : List Value :=
  ms.map fun m => r m.1

/-- The foreign-side key of a row: its values at the foreign mapped fields. -/
def frnKey (ms : List (String × String)) (r : Row) : List Value :=
  ms.map fun m => r m.2

/-- The join keys offered by the parent table: dedupe on the foreign-side key
(keep first), copy the foreign fields onto the native field names, then read
the native-named fields (the index the parent is set to before the join). -/
def parentKeys (ms : List (String × String)) (P : Table) : List (List Value) :=
  (dropDupBy (frnKey ms) P []).map fun p => natKey ms (renameRow ms p)

/-- Modelled from the spec: §4.4 join semantics of the pandas collaborator
(absent from src).  A native row finds a parent iff its key is null-free and
equals some parent key; a key holding the null sentinel matches nothing
("null never matches", spec §9). -/
def rowFails (ms : List (String × String)) (P : Table) (r : Row) : Bool :=
  !(decide (Value.null ∉ natKey ms r) && decide (natKey ms r ∈ parentKeys ms P))

/-- The boolean mask over the native table built from `bad_rows`: position `i`
holds iff child row `i` finds no parent row in the join. -/
def fkBadMask (d : PanDat) (fk : FkDecl) : List Bool :=
  (d fk.native).map (rowFails fk.mapping (d fk.foreign))

/-- Numeric bound that may be the infinite default `float("inf")` of
`set_data_type`. -/
inductive QInf where
  | fin : ℚ → QInf
  | inf : QInf
deriving DecidableEq

/-- Test `max >= value`, inclusively. -/
def QInf.geQ : QInf → ℚ → Bool
  | .inf, _ => true
  | .fin M, q => decide (q ≤ M)

/-- Test `max > value`, strictly. -/
def QInf.gtQ : QInf → ℚ → Bool
  | .inf, _ => true
  | .fin M, q => decide (q < M)

/-- Test `max >= min`, the parameter sanity check of `set_data_type`. -/
def QInf.geMin : QInf → ℚ → Bool
  | .inf, _ => true
  | .fin M, m => decide (m ≤ M)

/-- The `strings_allowed` parameter: the universal marker `'*'` or a finite
whitelist. -/
inductive StringsAllowed where
  | star : StringsAllowed
  | finite : List String → StringsAllowed
deriving DecidableEq

/-- The per-field type rule stored by `set_data_type`
(`ticdat.utils.TypeDictionary`). -/
structure TypeDictionary where
  number_allowed : Bool
  strings_allowed : StringsAllowed
  nullable : Bool
  min : ℚ
  max : QInf
  inclusive_min : Bool
  inclusive_max : Bool
  must_be_int : Bool
deriving DecidableEq

/-- Modelled from the spec: `TypeDictionary.valid_data` lives in
`ticdat/utils.py`, which is absent from src.  Spec §4.1: a null is valid iff
`nullable`; a number is valid iff `number_allowed`, integral when
`must_be_int`, and inside `[min, max]` with `inclusive_min`/`inclusive_max`
deciding boundary strictness; a string is valid iff `strings_allowed` is the
wildcard or contains it. -/
def valid_data (td : TypeDictionary) : Value → Bool
  | .null => td.nullable
  | .num q =>
      td.number_allowed
        && (!td.must_be_int || decide (q.den = 1))
        && (if td.inclusive_min then decide (td.min ≤ q) else decide (td.min < q))
        && (if td.inclusive_max then td.max.geQ q else td.max.gtQ q)
  | .str s =>
      match td.strings_allowed with
      | .star => true
      | .finite l => decide (s ∈ l)

/-- The mutable schema state of a `PanDatFactory` object. -/
structure Factory where
  all_tables : List String
  generic_tables : List String
  primary_key_fields : List (String × List String)
  data_fields : List (String × List String)
  has_been_used : Bool
  data_types : List (String × List (String × TypeDictionary))
  default_values : List (String × List (String × Value))
  data_row_predicates : List (String × List (Nat × (Row → Bool)))
  foreign_keys : List FkDecl

/-- Dictionary lookup with a default of the empty list
(`self.primary_key_fields.get(t, ())` and friends). -/
def lookupL {α : Type} (l : List (String × List α)) (t : String) : List α :=
  ((l.find? fun p => p.1 == t).map Prod.snd).getD []

/-- Source `self.primary_key_fields.get(tbl, ())`. -/
def Factory.pkFields (F : Factory) (t : String) : List String :=
  lookupL F.primary_key_fields t

/-- Source `self.data_fields[table]`. -/
def Factory.dataFields (F : Factory) (t : String) : List String :=
  lookupL F.data_fields t

/-- Source `self._all_fields(table)`: primary key fields then data fields. -/
def Factory.allFields (F : Factory) (t : String) : List String :=
  F.pkFields t ++ F.dataFields t

/-- Source `_find_foreign_key_failure_rows`: for each registered foreign key compute
the left-join-miss mask over its native table; a foreign key enters the result
iff `bad_rows` is nonempty (the mask holds some `true`). -/
def find_foreign_key_failure_rows (F : Factory) (d : PanDat) :
    List (FkDecl × List Bool) :=
  F.foreign_keys.filterMap fun fk =>
    let mask := fkBadMask d fk
    if mask.any id then some (fk, mask) else none

/-- pandas boolean indexing `child[[not _ for _ in rows]]`: keep the rows whose
mask entry is `false`. -/
def filterByMask (rows : Table) (mask : List Bool) : Table :=
  (rows.zip mask).filterMap fun rb => if rb.2 then none else some rb.1

/-- Source `setattr(pan_dat, native, ...)`: replace one table of the dataset. -/
def removeRows (d : PanDat) (t : String) (mask : List Bool) : PanDat :=
  fun t' => if t' = t then filterByMask (d t) mask else d t'

/-- Tables whose row counts bound the repair loop: every declared table plus
every native table of a foreign key (the only ones a removal step touches). -/
def fkTables (F : Factory) : List String :=
  F.all_tables ++ F.foreign_keys.map FkDecl.native

/-- Total number of rows over `fkTables`, the termination measure of
`remove_foreign_key_failures`. -/
def totalRows (F : Factory) (d : PanDat) : Nat :=
  ((fkTables F).map fun t => (d t).length).sum

theorem mem_find_fk_failure_rows (F : Factory) (d : PanDat) (e : FkDecl × List Bool) :
    e ∈ find_foreign_key_failure_rows F d ↔
      e.1 ∈ F.foreign_keys ∧ e.2 = fkBadMask d e.1 ∧ (fkBadMask d e.1).any id = true := by
  unfold find_foreign_key_failure_rows
  rw [List.mem_filterMap]
  constructor
  · rintro ⟨fk, hfk, hsome⟩
    simp only at hsome
    by_cases hany : (fkBadMask d fk).any id = true
    · rw [if_pos hany] at hsome
      cases hsome
      exact ⟨hfk, rfl, hany⟩
    · rw [if_neg hany] at hsome
      exact absurd hsome (by simp)
  · rintro ⟨hfk, hmask, hany⟩
    refine ⟨e.1, hfk, ?_⟩
    simp only
    rw [if_pos hany, ← hmask]

theorem filterByMask_map (rows : Table) (p : Row → Bool) :
    filterByMask rows (rows.map p) = rows.filter fun r => !(p r) := by
  induction rows with
  | nil => rfl
  | cons r rs ih =>
    simp only [filterByMask, List.map_cons, List.zip_cons_cons, List.filterMap_cons,
      List.filter_cons] at *
    cases h : p r <;> simp [h, ih, filterByMask]

theorem fkBadMask_removeRows_lt (d : PanDat) (fk : FkDecl)
    (h : (fkBadMask d fk).any id = true) :
    (filterByMask (d fk.native) (fkBadMask d fk)).length < (d fk.native).length := by
  unfold fkBadMask at *
  rw [filterByMask_map]
  rw [List.any_eq_true] at h
  obtain ⟨b, hb, hbtrue⟩ := h
  rw [List.mem_map] at hb
  obtain ⟨r, hr, hrb⟩ := hb
  apply List.length_filter_lt_length_iff_exists.2
  refine ⟨r, hr, ?_⟩
  simp only [id] at hbtrue
  simp [hrb, hbtrue]

theorem dropDupBy_subset (k : Row → List Value) (l : Table) (seen : List (List Value)) :
    ∀ x ∈ dropDupBy k l seen, x ∈ l := by
  induction l generalizing seen with
  | nil => intro x hx; exact absurd hx (by simp [dropDupBy])
  | cons r rs ih =>
    intro x hx
    simp only [dropDupBy] at hx
    by_cases hk : k r ∈ seen
    · rw [if_pos hk] at hx
      exact List.mem_cons_of_mem _ (ih seen x hx)
    · rw [if_neg hk] at hx
      rcases List.mem_cons.1 hx with h | h
      · exact h ▸ List.mem_cons_self _ _
      · exact List.mem_cons_of_mem _ (ih _ x h)

theorem dropDupBy_exists_rep (k : Row → List Value) (l : Table) (seen : List (List Value)) :
    ∀ x ∈ l, k x ∉ seen → ∃ y ∈ dropDupBy k l seen, k y = k x := by
  induction l generalizing seen with
  | nil => intro x hx; exact absurd hx (by simp)
  | cons r rs ih =>
    intro x hx hseen
    simp only [dropDupBy]
    by_cases hk : k r ∈ seen
    · rw [if_pos hk]
      rcases List.mem_cons.1 hx with h | h
      · exact absurd (h ▸ hseen) (fun hc => hc hk)
      · exact ih seen x h hseen
    · rw [if_neg hk]
      rcases List.mem_cons.1 hx with h | h
      · exact ⟨r, List.mem_cons_self _ _, by rw [h]⟩
      · by_cases hkx : k x = k r
        · exact ⟨r, List.mem_cons_self _ _, hkx.symm⟩
        · have : k x ∉ k r :: seen := by
            intro hc
            rcases List.mem_cons.1 hc with h' | h'
            · exact hkx h'
            · exact hseen h'
          obtain ⟨y, hy, hky⟩ := ih (k r :: seen) x h this
          exact ⟨y, List.mem_cons_of_mem _ hy, hky⟩

theorem renameRow_eq_of_not_native (ms : List (String × String)) (acc : Row) (f : String)
    (hf : ∀ m ∈ ms, m.1 ≠ f) : renameRow ms acc f = acc f := by
  induction ms generalizing acc with
  | nil => rfl
  | cons m rest ih =>
    rw [renameRow, List.foldl_cons]
    have h1 : updateField acc m.1 (acc m.2) f = acc f := by
      unfold updateField
      rw [if_neg (fun hc => hf m (List.mem_cons_self _ _) hc.symm)]
    rw [← renameRow]
    rw [ih _ (fun m' hm' => hf m' (List.mem_cons_of_mem _ hm'))]
    exact h1

/-- Two parent rows agreeing on all foreign-side mapped fields end up with
identical values at every native-side mapped field after the sequential column
copies: the parent's join key is a function of its foreign-side key alone. -/
theorem renameRow_native_agree (ms : List (String × String)) (p q : Row)
    (h : ∀ m ∈ ms, p m.2 = q m.2) :
    ∀ m ∈ ms, renameRow ms p m.1 = renameRow ms q m.1 := by
  induction ms generalizing p q with
  | nil => intro m hm; exact absurd hm (by simp)
  | cons m0 rest ih =>
    intro m hm
    have hpq0 : p m0.2 = q m0.2 := h m0 (List.mem_cons_self _ _)
    have hrw : ∀ r : Row, renameRow (m0 :: rest) r = renameRow rest (updateField r m0.1 (r m0.2)) := by
      intro r; rfl
    rw [hrw p, hrw q]
    have hagree : ∀ m' ∈ rest,
        updateField p m0.1 (p m0.2) m'.2 = updateField q m0.1 (q m0.2) m'.2 := by
      intro m' hm'
      unfold updateField
      by_cases hc : m'.2 = m0.1
      · rw [if_pos hc, if_pos hc]; exact hpq0
      · rw [if_neg hc, if_neg hc]; exact h m' (List.mem_cons_of_mem _ hm')
    rcases List.mem_cons.1 hm with hm1 | hm1
    · subst hm1
      by_cases hex : ∃ m' ∈ rest, m'.1 = m.1
      · obtain ⟨m', hm', he⟩ := hex
        have hres := ih _ _ hagree m' hm'
        rw [he] at hres
        exact hres
      · push_neg at hex
        rw [renameRow_eq_of_not_native rest _ m.1 hex,
            renameRow_eq_of_not_native rest _ m.1 hex]
        unfold updateField
        rw [if_pos rfl, if_pos rfl]
        exact hpq0
    · exact ih _ _ hagree m hm1

/-- The join key produced from a parent row factors through its foreign-side
key. -/
theorem natKey_renameRow_factor (ms : List (String × String)) (p q : Row)
    (h : frnKey ms p = frnKey ms q) :
    natKey ms (renameRow ms p) = natKey ms (renameRow ms q) := by
  have h' : ∀ m ∈ ms, p m.2 = q m.2 := by
    intro m hm
    unfold frnKey at h
    exact List.map_inj_left.1 h m hm
  unfold natKey
  exact List.map_inj_left.2 (renameRow_native_agree ms p q h')

/-- Membership in the offered parent keys, with the keep-first dedup
eliminated: a key is offered iff some raw parent row produces it. -/
theorem mem_parentKeys (ms : List (String × String)) (P : Table) (a : List Value) :
    a ∈ parentKeys ms P ↔ ∃ p ∈ P, natKey ms (renameRow ms p) = a := by
  unfold parentKeys
  rw [List.mem_map]
  constructor
  · rintro ⟨p, hp, rfl⟩
    exact ⟨p, dropDupBy_subset _ _ _ p hp, rfl⟩
  · rintro ⟨p, hp, rfl⟩
    obtain ⟨y, hy, hky⟩ := dropDupBy_exists_rep (frnKey ms) P [] p hp (by simp)
    exact ⟨y, hy, natKey_renameRow_factor ms y p hky⟩

/-- Shrinking the parent table only shrinks the offered key set. -/
theorem parentKeys_mono (ms : List (String × String)) {P' P : Table}
    (hsub : List.Sublist P' P) (a : List Value) (ha : a ∈ parentKeys ms P') :
    a ∈ parentKeys ms P := by
  rw [mem_parentKeys] at *
  obtain ⟨p, hp, hpa⟩ := ha
  exact ⟨p, hsub.subset hp, hpa⟩

/-- Foreign-key failure is monotone under row removal: a native row failing
against a parent table still fails against any sub-table of it (spec §4.5). -/
theorem rowFails_mono (ms : List (String × String)) {P' P : Table}
    (hsub : List.Sublist P' P) (r : Row) (h : rowFails ms P r = true) :
    rowFails ms P' r = true := by
  unfold rowFails at *
  simp only [Bool.not_eq_true', Bool.and_eq_false_iff, decide_eq_false_iff_not,
    not_not] at *
  rcases h with h | h
  · exact Or.inl h
  · by_cases hmem : natKey ms r ∈ parentKeys ms P'
    · exact Or.inr (absurd (parentKeys_mono ms hsub _ hmem) (by simpa using h))
    · exact Or.inr (by simpa using hmem)

theorem totalRows_remove_lt (F : Factory) (d : PanDat) (e : FkDecl × List Bool)
    (he : e ∈ find_foreign_key_failure_rows F d) :
    totalRows F (removeRows d e.1.native e.2) < totalRows F d := by
  obtain ⟨hfk, hmask, hany⟩ := (mem_find_fk_failure_rows F d e).1 he
  unfold totalRows
  apply List.sum_lt_sum
  · intro t ht
    by_cases hteq : t = e.1.native
    · subst hteq
      simp only [removeRows, if_pos rfl]
      rw [hmask]
      exact le_of_lt (fkBadMask_removeRows_lt d e.1 hany)
    · simp [removeRows, hteq]
  · refine ⟨e.1.native, ?_, ?_⟩
    · unfold fkTables
      rw [List.mem_append]
      exact Or.inr (List.mem_map.2 ⟨e.1, hfk, rfl⟩)
    · simp only [removeRows, if_pos rfl]
      rw [hmask]
      exact fkBadMask_removeRows_lt d e.1 hany

/-- Source `remove_foreign_key_failures`: recompute the failure map over the current
state; if empty stop, otherwise remove the failing rows of the first listed
foreign key in one bulk step and loop.  The source mutates `pan_dat` in place
and returns the same object; here the threaded state is the returned value. -/
def remove_foreign_key_failures (F : Factory) (d : PanDat) : PanDat :=
  match h : find_foreign_key_failure_rows F d with
  | [] => d
  | e :: _ => remove_foreign_key_failures F (removeRows d e.1.native e.2)
termination_by totalRows F d
decreasing_by
  exact totalRows_remove_lt F d e (by rw [h]; exact List.mem_cons_self _ _)

/-- After the repair loop stops, recomputing the failure map on the final
state yields the empty map (induction on the total row count). -/
theorem remove_clean_aux (F : Factory) :
    ∀ n d, totalRows F d ≤ n →
      find_foreign_key_failure_rows F (remove_foreign_key_failures F d) = [] := by
  intro n
  induction n with
  | zero =>
    intro d hd
    rw [remove_foreign_key_failures.eq_def]
    split
    · next heq => exact heq
    · next e es heq =>
      have hlt := totalRows_remove_lt F d e (by rw [heq]; exact List.mem_cons_self _ _)
      omega
  | succ n ih =>
    intro d hd
    rw [remove_foreign_key_failures.eq_def]
    split
    · next heq => exact heq
    · next e es heq =>
      have hlt := totalRows_remove_lt F d e (by rw [heq]; exact List.mem_cons_self _ _)
      exact ih _ (by omega)
/-- The failure map is empty exactly when no native row of any registered
foreign key fails the join. -/
theorem find_fk_failure_rows_eq_nil (F : Factory) (d : PanDat) :
    find_foreign_key_failure_rows F d = [] ↔
      ∀ fk ∈ F.foreign_keys, ∀ r ∈ d fk.native,
        rowFails fk.mapping (d fk.foreign) r = false := by
  unfold find_foreign_key_failure_rows
  rw [List.filterMap_eq_nil_iff]
  constructor
  · intro h fk hfk r hr
    have h2 := h fk hfk
    simp only at h2
    by_cases hany : (fkBadMask d fk).any id = true
    · rw [if_pos hany] at h2
      exact absurd h2 (by simp)
    · have hall : (fkBadMask d fk).any id = false := by
        revert hany; cases (fkBadMask d fk).any id <;> simp
      rw [List.any_eq_false] at hall
      have hmem : rowFails fk.mapping (d fk.foreign) r ∈ fkBadMask d fk :=
        List.mem_map_of_mem _ hr
      have hb := hall _ hmem
      revert hb
      cases rowFails fk.mapping (d fk.foreign) r <;> simp [id]
  · intro h fk hfk
    simp only
    have hfalse : (fkBadMask d fk).any id = false := by
      rw [List.any_eq_false]
      intro b hb
      rw [fkBadMask, List.mem_map] at hb
      obtain ⟨r, hr, rfl⟩ := hb
      simp [id, h fk hfk r hr]
    rw [if_neg (by simp [hfalse])]

/-- C1: for every schema and finite dataset, `remove_foreign_key_failures`
terminates — each iteration (each entry of the recomputed failure map) strictly
removes at least one row from its native table —, and on return the
foreign-key-failure map over the resulting (threaded and returned) dataset is
empty: no native row of any registered foreign key lacks a matching foreign
row. -/
theorem claim_C1_remove_fk_failures_terminates_clean (F : Factory) (d : PanDat) :
    (∀ e ∈ find_foreign_key_failure_rows F d,
        totalRows F (removeRows d e.1.native e.2) < totalRows F d) ∧
    find_foreign_key_failure_rows F (remove_foreign_key_failures F d) = [] ∧
    (∀ fk ∈ F.foreign_keys, ∀ r ∈ remove_foreign_key_failures F d fk.native,
        rowFails fk.mapping (remove_foreign_key_failures F d fk.foreign) r = false) := by
  refine ⟨fun e he => totalRows_remove_lt F d e he, ?_, ?_⟩
  · exact remove_clean_aux F (totalRows F d) d le_rfl
  · exact (find_fk_failure_rows_eq_nil F _).1
      (remove_clean_aux F (totalRows F d) d le_rfl)

/-- A row holding one number in one named column, null elsewhere. -/
def exRowNum (f : String) (v : ℚ) : Row :=
  fun g => if g = f then Value.num v else Value.null

/-- Example native table `orders(customer_id) = [1, 2, 3]` (spec §8). -/
def exOrders : Table :=
  [exRowNum "customer_id" 1, exRowNum "customer_id" 2, exRowNum "customer_id" 3]

/-- Example foreign table `customers(id) = [1, 3]` (spec §8). -/
def exCustomers : Table := [exRowNum "id" 1, exRowNum "id" 3]

/-- The example foreign key orders(customer_id) → customers(id). -/
def exFk : FkDecl := ⟨"orders", "customers", [("customer_id", "id")]⟩

/-- Example schema owning the two example tables and the example foreign key. -/
def exFactory : Factory where
  all_tables := ["orders", "customers"]
  generic_tables := []
  primary_key_fields := [("customers", ["id"])]
  data_fields := [("orders", ["customer_id"])]
  has_been_used := false
  data_types := []
  default_values := []
  data_row_predicates := []
  foreign_keys := [exFk]

/-- The example dataset for `exFactory`. -/
def exData : PanDat :=
  fun t => if t = "orders" then exOrders else if t = "customers" then exCustomers else []

theorem claim_C1_remove_fk_failures_terminates_clean_witness :
    (exFk, [false, true, false]) ∈ find_foreign_key_failure_rows exFactory exData ∧
    totalRows exFactory (removeRows exData exFk.native [false, true, false]) <
      totalRows exFactory exData :=
  ⟨by decide,
   (claim_C1_remove_fk_failures_terminates_clean exFactory exData).1
     (exFk, [false, true, false]) (by decide)⟩
/-- The left-join miss condition, phrased against the raw parent table: the
keep-first dedup step never changes which keys are offered. -/
theorem rowFails_iff (ms : List (String × String)) (P : Table) (r : Row) :
    rowFails ms P r = true ↔
      ¬ (Value.null ∉ natKey ms r ∧
         ∃ p ∈ P, natKey ms (renameRow ms p) = natKey ms r) := by
  unfold rowFails
  constructor
  · intro h hc
    obtain ⟨hnull, hex⟩ := hc
    have hmem : natKey ms r ∈ parentKeys ms P := (mem_parentKeys ms P _).2 hex
    simp [hnull, hmem] at h
  · intro h
    by_cases hnull : Value.null ∉ natKey ms r
    · by_cases hmem : natKey ms r ∈ parentKeys ms P
      · exact absurd ⟨hnull, (mem_parentKeys ms P _).1 hmem⟩ h
      · simp [hmem]
    · simp [hnull]

/-- C2: foreign-key failure detection marks exactly the native row positions
whose (null-free) key is produced by no foreign row after the keep-first
dedup and the foreign-to-native column renaming; on the spec §8 example
(orders(customer_id) = [1,2,3] against customers(id) = [1,3]) the failure
mask is exactly position 1; an empty native table contributes no failures. -/
theorem claim_C2_fk_failure_row_characterization (F : Factory) (d : PanDat) :
    (∀ fk (i : Nat) (r : Row), (d fk.native)[i]? = some r →
        ((fkBadMask d fk)[i]? = some true ↔
          ¬ (Value.null ∉ natKey fk.mapping r ∧
             ∃ p ∈ d fk.foreign,
               natKey fk.mapping (renameRow fk.mapping p) = natKey fk.mapping r))) ∧
    fkBadMask exData exFk = [false, true, false] ∧
    (∀ fk : FkDecl, d fk.native = [] →
        ∀ mask, (fk, mask) ∉ find_foreign_key_failure_rows F d) := by
  refine ⟨?_, by decide, ?_⟩
  · intro fk i r hr
    rw [fkBadMask, List.getElem?_map, hr]
    simp only [Option.map_some']
    rw [Option.some_inj]
    rw [← rowFails_iff]
  · intro fk hempty mask hmem
    obtain ⟨_, hmask, hany⟩ := (mem_find_fk_failure_rows F d _).1 hmem
    simp only at hmask hany
    rw [fkBadMask, hempty] at hany
    simp at hany

theorem claim_C2_fk_failure_row_characterization_witness :
    ((exData exFk.native)[1]? = some (exRowNum "customer_id" 2)) ∧
    ((fkBadMask exData exFk)[1]? = some true ↔
      ¬ (Value.null ∉ natKey exFk.mapping (exRowNum "customer_id" 2) ∧
         ∃ p ∈ exData exFk.foreign,
           natKey exFk.mapping (renameRow exFk.mapping p) =
             natKey exFk.mapping (exRowNum "customer_id" 2))) :=
  ⟨rfl,
   (claim_C2_fk_failure_row_characterization exFactory exData).1 exFk 1
     (exRowNum "customer_id" 2) rfl⟩

/-- A native table whose mapped fields hold a null for the example. -/
def exNullRow : Row := exRowNum "x" 0

/-- A foreign table offering a null key, for the example. -/
def exNullParent : Row := fun _ => Value.null

/-- Dataset where the single orders row has a null customer_id and the
customers table itself offers a null id. -/
def exNullData : PanDat :=
  fun t => if t = "orders" then [exNullRow]
           else if t = "customers" then [exNullParent] else []

/-- C6: a native row whose mapped native-side fields contain the null sentinel
is always reported as a foreign-key failure, whatever the foreign table holds
(even a matching null key there). -/
theorem claim_C6_null_key_always_fails (F : Factory) (d : PanDat) (fk : FkDecl)
    (hfk : fk ∈ F.foreign_keys) (i : Nat) (r : Row)
    (hr : (d fk.native)[i]? = some r) (hnull : Value.null ∈ natKey fk.mapping r) :
    (fkBadMask d fk)[i]? = some true ∧
    (fk, fkBadMask d fk) ∈ find_foreign_key_failure_rows F d := by
  have hfail : rowFails fk.mapping (d fk.foreign) r = true := by
    rw [rowFails_iff]
    intro hc
    exact hc.1 hnull
  have hmaski : (fkBadMask d fk)[i]? = some true := by
    rw [fkBadMask, List.getElem?_map, hr, Option.map_some', hfail]
  refine ⟨hmaski, (mem_find_fk_failure_rows F d _).2 ⟨hfk, rfl, ?_⟩⟩
  rw [List.any_eq_true]
  refine ⟨true, ?_, rfl⟩
  have := List.getElem?_mem hmaski
  exact this

theorem claim_C6_null_key_always_fails_witness :
    (fkBadMask exNullData exFk)[0]? = some true ∧
    (exFk, fkBadMask exNullData exFk) ∈
      find_foreign_key_failure_rows exFactory exNullData :=
  claim_C6_null_key_always_fails exFactory exNullData exFk (by decide) 0 exNullRow
    rfl (by decide)
/-- One bulk-removal iteration of the repair loop, with a free choice of which
foreign key with nonempty failures is processed (the source always picks
`next(iter(remove_rows))`; the relation allows any entry). -/
inductive FkStep (F : Factory) : PanDat → PanDat → Prop where
  | step (d : PanDat) (e : FkDecl × List Bool)
      (he : e ∈ find_foreign_key_failure_rows F d) :
      FkStep F d (removeRows d e.1.native e.2)

/-- Terminal state of the repair loop: the recomputed failure map is empty. -/
def FkClean (F : Factory) (d : PanDat) : Prop :=
  find_foreign_key_failure_rows F d = []

/-- Dataset `d'` arises from `d` by deleting rows (order preserved) in every
table. -/
def SubData (d' d : PanDat) : Prop := ∀ t, List.Sublist (d' t) (d t)

theorem SubData.refl (d : PanDat) : SubData d d := fun _ => List.Sublist.refl _

theorem SubData.trans {d1 d2 d3 : PanDat} (h1 : SubData d1 d2) (h2 : SubData d2 d3) :
    SubData d1 d3 := fun t => (h1 t).trans (h2 t)

/-- A removal step only deletes rows. -/
theorem FkStep.subData {F : Factory} {d f : PanDat} (h : FkStep F d f) :
    SubData f d := by
  cases h with
  | step e he =>
    obtain ⟨hfk, hmask, _⟩ := (mem_find_fk_failure_rows F d e).1 he
    intro t
    unfold removeRows
    by_cases hteq : t = e.1.native
    · rw [if_pos hteq, hmask, hteq, fkBadMask, filterByMask_map]
      exact List.filter_sublist _
    · rw [if_neg hteq]

/-- The crucial invariant: a clean sub-dataset survives every removal step.
Every row such a step deletes fails its foreign key against the bigger
dataset, hence — failures being monotone under row removal — would fail
against the clean sub-dataset as well, so it cannot be one of its rows. -/
theorem fkclean_subData_step {F : Factory} {e d f : PanDat}
    (hclean : FkClean F e) (hsub : SubData e d) (hstep : FkStep F d f) :
    SubData e f := by
  have hall := (find_fk_failure_rows_eq_nil F e).1 hclean
  cases hstep with
  | step ent hent =>
    obtain ⟨hfk, hmask, _⟩ := (mem_find_fk_failure_rows F d ent).1 hent
    intro t
    unfold removeRows
    by_cases hteq : t = ent.1.native
    · rw [if_pos hteq, hmask, fkBadMask, filterByMask_map]
      subst hteq
      have hkeep : ∀ r ∈ e ent.1.native,
          (!(rowFails ent.1.mapping (d ent.1.foreign) r)) = true := by
        intro r hr
        have hfalse : rowFails ent.1.mapping (e ent.1.foreign) r = false :=
          hall ent.1 hfk r hr
        by_cases hd : rowFails ent.1.mapping (d ent.1.foreign) r = true
        · have := rowFails_mono ent.1.mapping (hsub ent.1.foreign) r hd
          rw [hfalse] at this
          exact absurd this (by simp)
        · simp only [Bool.not_eq_true] at hd
          rw [hd]
          rfl
      have hsubf := (hsub ent.1.native).filter
        (fun r => !(rowFails ent.1.mapping (d ent.1.foreign) r))
      rw [List.filter_eq_self.2 hkeep] at hsubf
      exact hsubf
    · rw [if_neg hteq]
      exact hsub t

/-- A clean sub-dataset survives any whole run. -/
theorem fkclean_subData_run {F : Factory} {e d f : PanDat}
    (hclean : FkClean F e) (hsub : SubData e d)
    (hrun : Relation.ReflTransGen (FkStep F) d f) : SubData e f := by
  induction hrun with
  | refl => exact hsub
  | tail _ hstep ih => exact fkclean_subData_step hclean ih hstep

/-- Any run only deletes rows. -/
theorem run_subData {F : Factory} {d f : PanDat}
    (hrun : Relation.ReflTransGen (FkStep F) d f) : SubData f d := by
  induction hrun with
  | refl => exact SubData.refl d
  | tail _ hstep ih => exact SubData.trans hstep.subData ih

/-- The deterministic loop of the source is one admissible run. -/
theorem remove_fk_failures_is_run (F : Factory) (d : PanDat) :
    Relation.ReflTransGen (FkStep F) d (remove_foreign_key_failures F d) := by
  have haux : ∀ n d', totalRows F d' ≤ n →
      Relation.ReflTransGen (FkStep F) d' (remove_foreign_key_failures F d') := by
    intro n
    induction n with
    | zero =>
      intro d' hd'
      rw [remove_foreign_key_failures.eq_def]
      split
      · exact Relation.ReflTransGen.refl
      · next e es heq =>
        have hlt := totalRows_remove_lt F d' e
          (by rw [heq]; exact List.mem_cons_self _ _)
        omega
    | succ n ih =>
      intro d' hd'
      rw [remove_foreign_key_failures.eq_def]
      split
      · exact Relation.ReflTransGen.refl
      · next e es heq =>
        have hmem : e ∈ find_foreign_key_failure_rows F d' := by
          rw [heq]; exact List.mem_cons_self _ _
        have hlt := totalRows_remove_lt F d' e hmem
        exact Relation.ReflTransGen.head (FkStep.step d' e hmem) (ih _ (by omega))
  exact haux (totalRows F d) d le_rfl

/-- C3: the final state of the cascading removal does not depend on which
foreign key with nonempty failures is processed at each iteration: every run
of removal steps that reaches a failure-free state reaches the very dataset
the source's deterministic loop computes — so any two complete runs agree. -/
theorem claim_C3_removal_order_independent (F : Factory) (d e : PanDat)
    (hrun : Relation.ReflTransGen (FkStep F) d e) (hclean : FkClean F e) :
    e = remove_foreign_key_failures F d := by
  set rfinal := remove_foreign_key_failures F d with hrdef
  have hrrun : Relation.ReflTransGen (FkStep F) d rfinal :=
    remove_fk_failures_is_run F d
  have hrclean : FkClean F rfinal :=
    remove_clean_aux F (totalRows F d) d le_rfl
  have h1 : SubData e rfinal :=
    fkclean_subData_run hclean (run_subData hrun) hrrun
  have h2 : SubData rfinal e :=
    fkclean_subData_run hrclean (run_subData hrrun) hrun
  funext t
  exact (h1 t).antisymm (h2 t)

/-- An already-empty dataset, clean for the example schema. -/
def exEmptyData : PanDat := fun _ => []

theorem claim_C3_removal_order_independent_witness :
    exEmptyData = remove_foreign_key_failures exFactory exEmptyData :=
  claim_C3_removal_order_independent exFactory exEmptyData exEmptyData
    Relation.ReflTransGen.refl (by unfold FkClean; decide)
/-- Source `half_card` inside the `foreign_keys` property: a side is "one" iff that
table's primary key is nonempty (the truthiness test `if pkfs and ...`) and
the mapped fields on that side are a superset of it. -/
def half_card (F : Factory) (tbl : String) (fields : List String) : String :=
  if F.pkFields tbl ≠ [] ∧ ∀ f ∈ F.pkFields tbl, f ∈ fields then "one" else "many"

/-- The derived cardinality string exposed for a foreign key. -/
def fk_cardinality (F : Factory) (fk : FkDecl) : String :=
  half_card F fk.native (fk.mapping.map Prod.fst) ++ "-to-" ++
    half_card F fk.foreign (fk.mapping.map Prod.snd)

/-- The claim's classification rule exactly as worded: a side is "one" iff the
mapped fields on that side are a superset of that table's primary-key fields
(no nonemptiness requirement).  For comparison with `half_card`. -/
def spec_half_card (F : Factory) (tbl : String) (fields : List String) : String :=
  if ∀ f ∈ F.pkFields tbl, f ∈ fields then "one" else "many"

/-- The claim's cardinality string as worded. -/
def spec_fk_cardinality (F : Factory) (fk : FkDecl) : String :=
  spec_half_card F fk.native (fk.mapping.map Prod.fst) ++ "-to-" ++
    spec_half_card F fk.foreign (fk.mapping.map Prod.snd)

/-- A schema whose two tables have no primary key at all, yet carry a foreign
key (nothing in `add_foreign_key` forbids that). -/
def exNoPkFactory : Factory where
  all_tables := ["a", "b"]
  generic_tables := []
  primary_key_fields := []
  data_fields := [("a", ["x"]), ("b", ["y"])]
  has_been_used := false
  data_types := []
  default_values := []
  data_row_predicates := []
  foreign_keys := [⟨"b", "a", [("y", "x")]⟩]

/-- C4 counterexample: on a foreign key between tables with empty primary
keys, the claim's superset rule says "one-to-one" (a superset of the empty key
is trivial) but the code's `half_card`, whose `if pkfs and ...` test treats an
empty primary key as falsy, reports "many-to-many". -/
theorem claim_C4_cardinality_counterexample :
    spec_fk_cardinality exNoPkFactory ⟨"b", "a", [("y", "x")]⟩ = "one-to-one" ∧
    fk_cardinality exNoPkFactory ⟨"b", "a", [("y", "x")]⟩ = "many-to-many" ∧
    spec_fk_cardinality exNoPkFactory ⟨"b", "a", [("y", "x")]⟩ ≠
      fk_cardinality exNoPkFactory ⟨"b", "a", [("y", "x")]⟩ := by
  refine ⟨?_, ?_, ?_⟩ <;> decide

/-- C4 (amended): the exposed cardinality is "<native-side>-to-<foreign-side>"
where a side is "one" iff that table's primary key is nonempty and the mapped
fields on that side are a superset of it, and "many" otherwise; in particular
a mapping covering the full nonempty primary keys of both tables yields
"one-to-one" and one covering only the foreign table's nonempty primary key
yields "many-to-one". -/
theorem claim_C4_cardinality_characterization (F : Factory) (fk : FkDecl) :
    (fk_cardinality F fk = "one-to-one" ↔
      (F.pkFields fk.native ≠ [] ∧
        ∀ f ∈ F.pkFields fk.native, f ∈ fk.mapping.map Prod.fst) ∧
      (F.pkFields fk.foreign ≠ [] ∧
        ∀ f ∈ F.pkFields fk.foreign, f ∈ fk.mapping.map Prod.snd)) ∧
    (fk_cardinality F fk = "many-to-one" ↔
      ¬ (F.pkFields fk.native ≠ [] ∧
        ∀ f ∈ F.pkFields fk.native, f ∈ fk.mapping.map Prod.fst) ∧
      (F.pkFields fk.foreign ≠ [] ∧
        ∀ f ∈ F.pkFields fk.foreign, f ∈ fk.mapping.map Prod.snd)) ∧
    (fk_cardinality F fk = "one-to-many" ↔
      (F.pkFields fk.native ≠ [] ∧
        ∀ f ∈ F.pkFields fk.native, f ∈ fk.mapping.map Prod.fst) ∧
      ¬ (F.pkFields fk.foreign ≠ [] ∧
        ∀ f ∈ F.pkFields fk.foreign, f ∈ fk.mapping.map Prod.snd)) ∧
    (fk_cardinality F fk = "many-to-many" ↔
      ¬ (F.pkFields fk.native ≠ [] ∧
        ∀ f ∈ F.pkFields fk.native, f ∈ fk.mapping.map Prod.fst) ∧
      ¬ (F.pkFields fk.foreign ≠ [] ∧
        ∀ f ∈ F.pkFields fk.foreign, f ∈ fk.mapping.map Prod.snd)) := by
  by_cases hA : F.pkFields fk.native ≠ [] ∧
      ∀ f ∈ F.pkFields fk.native, f ∈ fk.mapping.map Prod.fst <;>
    by_cases hB : F.pkFields fk.foreign ≠ [] ∧
        ∀ f ∈ F.pkFields fk.foreign, f ∈ fk.mapping.map Prod.snd
  · rw [fk_cardinality, half_card, half_card, if_pos hA, if_pos hB]
    exact ⟨iff_of_true (by decide) ⟨hA, hB⟩,
      iff_of_false (by decide) (fun h => h.1 hA),
      iff_of_false (by decide) (fun h => h.2 hB),
      iff_of_false (by decide) (fun h => h.1 hA)⟩
  · rw [fk_cardinality, half_card, half_card, if_pos hA, if_neg hB]
    exact ⟨iff_of_false (by decide) (fun h => hB h.2),
      iff_of_false (by decide) (fun h => h.1 hA),
      iff_of_true (by decide) ⟨hA, hB⟩,
      iff_of_false (by decide) (fun h => h.1 hA)⟩
  · rw [fk_cardinality, half_card, half_card, if_neg hA, if_pos hB]
    exact ⟨iff_of_false (by decide) (fun h => hA h.1),
      iff_of_true (by decide) ⟨hA, hB⟩,
      iff_of_false (by decide) (fun h => hA h.1),
      iff_of_false (by decide) (fun h => h.2 hB)⟩
  · rw [fk_cardinality, half_card, half_card, if_neg hA, if_neg hB]
    exact ⟨iff_of_false (by decide) (fun h => hA h.1),
      iff_of_false (by decide) (fun h => hB h.2),
      iff_of_false (by decide) (fun h => hA h.1),
      iff_of_true (by decide) ⟨hA, hB⟩⟩
/-- Modelled from the spec: pandas `DataFrame.duplicated(subset, keep='first')`
(pandas is an external collaborator).  Spec §4.6: keep-first marks all but the
first occurrence of each duplicate group; `seen` carries the keys of the rows
already passed. -/
def dupMaskFirst : List (List Value) → List (List Value) → List Bool
  | [], _ => []
  | k :: rest, seen => decide (k ∈ seen) :: dupMaskFirst rest (k :: seen)

/-- Modelled from the spec: `duplicated(subset, keep='last')`.  Spec §4.6:
keep-last marks all but the last occurrence, i.e. a row some later row
duplicates. -/
def dupMaskLast : List (List Value) → List Bool
  | [] => []
  | k :: rest => decide (k ∈ rest) :: dupMaskLast rest

/-- Modelled from the spec: `duplicated(subset, keep=False)`.  Spec §4.6:
keep-none marks every member of every duplicate group. -/
def dupMaskNone (ks : List (List Value)) : List Bool :=
  ks.map fun k => decide (2 ≤ ks.count k)

/-- The `keep` policy argument of `find_duplicates`. -/
inductive Keep where
  | first : Keep
  | last : Keep
  | none : Keep
deriving DecidableEq

/-- Dispatch on the `keep` policy. -/
def dupMask (keep : Keep) (ks : List (List Value)) : List Bool :=
  match keep with
  | .first => dupMaskFirst ks []
  | .last => dupMaskLast ks
  | .none => dupMaskNone ks

/-- Source `find_duplicates`: for every table with nonempty primary key fields, the
mask of duplicated rows over the primary-key projection; a table enters the
result iff some row is marked. -/
def find_duplicates (F : Factory) (keep : Keep) (d : PanDat) :
    List (String × List Bool) :=
  F.all_tables.filterMap fun t =>
    if F.pkFields t ≠ [] then
      let dups := dupMask keep ((d t).map fun r => (F.pkFields t).map r)
      if dups.any id then some (t, dups) else none
    else none

theorem dupMaskFirst_spec (ks : List (List Value)) :
    ∀ (seen : List (List Value)) (i : Nat) (k : List Value), ks[i]? = some k →
      ((dupMaskFirst ks seen)[i]? = some true ↔
        k ∈ seen ∨ ∃ j < i, ks[j]? = some k) := by
  induction ks with
  | nil => intro seen i k hk; simp at hk
  | cons k0 rest ih =>
    intro seen i k hk
    match i with
    | 0 =>
      rw [List.getElem?_cons_zero, Option.some_inj] at hk
      subst hk
      rw [dupMaskFirst, List.getElem?_cons_zero, Option.some_inj]
      simp only [decide_eq_true_eq]
      constructor
      · intro h; exact Or.inl h
      · rintro (h | ⟨j, hj, _⟩)
        · exact h
        · omega
    | i' + 1 =>
      rw [List.getElem?_cons_succ] at hk
      rw [dupMaskFirst, List.getElem?_cons_succ]
      rw [ih (k0 :: seen) i' k hk]
      constructor
      · rintro (h | ⟨j, hj, hjk⟩)
        · rcases List.mem_cons.1 h with h0 | h0
          · exact Or.inr ⟨0, by omega, by rw [List.getElem?_cons_zero, h0]⟩
          · exact Or.inl h0
        · exact Or.inr ⟨j + 1, by omega, by rw [List.getElem?_cons_succ]; exact hjk⟩
      · rintro (h | ⟨j, hj, hjk⟩)
        · exact Or.inl (List.mem_cons_of_mem _ h)
        · match j with
          | 0 =>
            rw [List.getElem?_cons_zero, Option.some_inj] at hjk
            exact Or.inl (hjk ▸ List.mem_cons_self _ _)
          | j' + 1 =>
            rw [List.getElem?_cons_succ] at hjk
            exact Or.inr ⟨j', by omega, hjk⟩

theorem dupMaskLast_spec (ks : List (List Value)) :
    ∀ (i : Nat) (k : List Value), ks[i]? = some k →
      ((dupMaskLast ks)[i]? = some true ↔ ∃ j, i < j ∧ ks[j]? = some k) := by
  induction ks with
  | nil => intro i k hk; simp at hk
  | cons k0 rest ih =>
    intro i k hk
    match i with
    | 0 =>
      rw [List.getElem?_cons_zero, Option.some_inj] at hk
      subst hk
      rw [dupMaskLast, List.getElem?_cons_zero, Option.some_inj]
      simp only [decide_eq_true_eq]
      rw [List.mem_iff_getElem?]
      constructor
      · rintro ⟨j, hj⟩
        exact ⟨j + 1, by omega, by rw [List.getElem?_cons_succ]; exact hj⟩
      · rintro ⟨j, hj, hjk⟩
        match j with
        | 0 => omega
        | j' + 1 =>
          rw [List.getElem?_cons_succ] at hjk
          exact ⟨j', hjk⟩
    | i' + 1 =>
      rw [List.getElem?_cons_succ] at hk
      rw [dupMaskLast, List.getElem?_cons_succ, ih i' k hk]
      constructor
      · rintro ⟨j, hj, hjk⟩
        exact ⟨j + 1, by omega, by rw [List.getElem?_cons_succ]; exact hjk⟩
      · rintro ⟨j, hj, hjk⟩
        match j with
        | 0 => omega
        | j' + 1 =>
          rw [List.getElem?_cons_succ] at hjk
          exact ⟨j', by omega, hjk⟩
theorem two_le_count_iff (ks : List (List Value)) (i : Nat) (k : List Value)
    (hk : ks[i]? = some k) :
    2 ≤ ks.count k ↔ ∃ j, j ≠ i ∧ ks[j]? = some k := by
  constructor
  · intro h2
    have hi : i < ks.length := by
      by_contra hc
      rw [List.getElem?_eq_none (by omega)] at hk
      exact absurd hk (by simp)
    have hdrop : ks.drop i = ks[i] :: ks.drop (i + 1) :=
      List.drop_eq_getElem_cons hi
    have hksi : ks[i] = k := by
      have := List.getElem?_eq_getElem hi
      rw [this, Option.some_inj] at hk
      exact hk
    have hcount : ks.count k = (ks.take i).count k + (1 + (ks.drop (i + 1)).count k) := by
      conv_lhs => rw [← List.take_append_drop i ks]
      rw [List.count_append, hdrop, hksi, List.count_cons_self]
      omega
    have hone : 1 ≤ (ks.take i).count k + (ks.drop (i + 1)).count k := by omega
    by_cases htake : 0 < (ks.take i).count k
    · have hmem : k ∈ ks.take i := List.count_pos_iff.1 htake
      obtain ⟨j, hj⟩ := List.mem_iff_getElem?.1 hmem
      rw [List.getElem?_take] at hj
      by_cases hjlt : j < i
      · rw [if_pos hjlt] at hj
        exact ⟨j, by omega, hj⟩
      · rw [if_neg hjlt] at hj
        exact absurd hj (by simp)
    · have hdropc : 0 < (ks.drop (i + 1)).count k := by omega
      have hmem : k ∈ ks.drop (i + 1) := List.count_pos_iff.1 hdropc
      obtain ⟨m, hm⟩ := List.mem_iff_getElem?.1 hmem
      rw [List.getElem?_drop] at hm
      exact ⟨i + 1 + m, by omega, hm⟩
  · rintro ⟨j, hji, hj⟩
    have key : ∀ a b : Nat, a < b → ks[a]? = some k → ks[b]? = some k →
        2 ≤ ks.count k := by
      intro a b hab ha hb
      have ht1 : (ks.take (a + 1))[a]? = some k := by
        rw [List.getElem?_take, if_pos (by omega)]
        exact ha
      have hmem1 : k ∈ ks.take (a + 1) := List.getElem?_mem ht1
      have ht2 : (ks.drop (a + 1))[b - (a + 1)]? = some k := by
        rw [List.getElem?_drop]
        have heq : a + 1 + (b - (a + 1)) = b := by omega
        rw [heq]
        exact hb
      have hmem2 : k ∈ ks.drop (a + 1) := List.getElem?_mem ht2
      have hsub : List.Sublist ([k] ++ [k]) (ks.take (a + 1) ++ ks.drop (a + 1)) :=
        List.Sublist.append (List.singleton_sublist.2 hmem1)
          (List.singleton_sublist.2 hmem2)
      rw [List.take_append_drop] at hsub
      have hc := hsub.count_le k
      simpa using hc
    rcases Nat.lt_or_ge i j with hij | hij
    · exact key i j hij hk hj
    · exact key j i (by omega) hj hk

theorem dupMaskNone_spec (ks : List (List Value)) (i : Nat) (k : List Value)
    (hk : ks[i]? = some k) :
    (dupMaskNone ks)[i]? = some true ↔ ∃ j, j ≠ i ∧ ks[j]? = some k := by
  rw [dupMaskNone, List.getElem?_map, hk, Option.map_some', Option.some_inj]
  rw [show (decide (2 ≤ ks.count k) = true) ↔ 2 ≤ ks.count k from by simp]
  exact two_le_count_iff ks i k hk
/-- Example schema for duplicate detection: `items` with primary key `id`;
`log` with no primary key at all. -/
def exDupFactory : Factory where
  all_tables := ["items", "log"]
  generic_tables := []
  primary_key_fields := [("items", ["id"])]
  data_fields := [("items", ["weight"]), ("log", ["msg"])]
  has_been_used := false
  data_types := []
  default_values := []
  data_row_predicates := []
  foreign_keys := []

/-- items rows `[{id:1},{id:1},{id:2}]` (spec §8); log holds two identical
rows, which must nevertheless never be reported (no primary key). -/
def exDupData : PanDat :=
  fun t =>
    if t = "items" then [exRowNum "id" 1, exRowNum "id" 1, exRowNum "id" 2]
    else if t = "log" then [exRowNum "msg" 5, exRowNum "msg" 5] else []

/-- C8: `find_duplicates` marks, per table with a nonempty primary key, under
keep='first' exactly the rows sharing their full primary-key projection with
an earlier row, under keep='last' those shared with a later row, and under
keep=False every member of every duplicate group; tables without primary key
never appear in the result; on rows `[{id:1},{id:1},{id:2}]` keep='first'
marks exactly position 1 and keep=False positions 0 and 1. -/
theorem claim_C8_find_duplicates_marks (F : Factory) (keep : Keep) (d : PanDat) :
    (∀ t mask, (t, mask) ∈ find_duplicates F keep d → F.pkFields t ≠ []) ∧
    (∀ (ks : List (List Value)) (i : Nat) (k : List Value), ks[i]? = some k →
      (((dupMask .first ks)[i]? = some true ↔ ∃ j < i, ks[j]? = some k) ∧
       ((dupMask .last ks)[i]? = some true ↔ ∃ j, i < j ∧ ks[j]? = some k) ∧
       ((dupMask .none ks)[i]? = some true ↔ ∃ j, j ≠ i ∧ ks[j]? = some k))) ∧
    find_duplicates exDupFactory .first exDupData = [("items", [false, true, false])] ∧
    find_duplicates exDupFactory .none exDupData = [("items", [true, true, false])] := by
  refine ⟨?_, ?_, by decide, by decide⟩
  · intro t mask hmem
    rw [find_duplicates, List.mem_filterMap] at hmem
    obtain ⟨t', _, hsome⟩ := hmem
    by_cases hpk : F.pkFields t' ≠ []
    · rw [if_pos hpk] at hsome
      simp only at hsome
      by_cases hany : (dupMask keep ((d t').map fun r => (F.pkFields t').map r)).any id = true
      · rw [if_pos hany, Option.some_inj] at hsome
        have ht : t' = t := congrArg Prod.fst hsome
        rw [← ht]
        exact hpk
      · rw [if_neg hany] at hsome
        exact absurd hsome (by simp)
    · rw [if_neg hpk] at hsome
      exact absurd hsome (by simp)
  · intro ks i k hk
    refine ⟨?_, dupMaskLast_spec ks i k hk, dupMaskNone_spec ks i k hk⟩
    have h := dupMaskFirst_spec ks [] i k hk
    rw [show dupMask .first ks = dupMaskFirst ks [] from rfl, h]
    simp only [List.not_mem_nil, false_or]

theorem claim_C8_find_duplicates_marks_witness :
    exDupFactory.pkFields "items" ≠ [] ∧
    ((dupMask .first [[Value.num 1], [Value.num 1], [Value.num 2]])[1]? = some true ↔
      ∃ j < 1, [[Value.num 1], [Value.num 1], [Value.num 2]][j]? = some [Value.num 1]) :=
  ⟨(claim_C8_find_duplicates_marks exDupFactory .first exDupData).1 "items"
      [false, true, false] (by decide),
   ((claim_C8_find_duplicates_marks exDupFactory .first exDupData).2.1
      [[Value.num 1], [Value.num 1], [Value.num 2]] 1 [Value.num 1] (by decide)).1⟩
/-- Source `find_data_type_failures` core: for each registered (table, field) type
rule, the per-row mask `not data_type.valid_data(None if isnan(data) else
data)` — the nan-to-None normalization is the identity here since the model
has a single null sentinel; a (table, field) pair enters the result iff some
row fails. -/
def find_data_type_failures (F : Factory) (d : PanDat) :
    List ((String × String) × List Bool) :=
  F.data_types.flatMap fun tr =>
    tr.2.filterMap fun fdt =>
      let mask := (d tr.1).map fun r => !valid_data fdt.2 (r fdt.1)
      if mask.any id then some ((tr.1, fdt.1), mask) else none

/-- Source `find_data_row_failures`: for each registered (table, predicate-name)
pair, the mask of rows on which the predicate is falsy; a pair enters the
result iff some row fails. -/
def find_data_row_failures (F : Factory) (d : PanDat) :
    List ((String × Nat) × List Bool) :=
  F.data_row_predicates.flatMap fun tp =>
    tp.2.filterMap fun pp =>
      let mask := (d tp.1).map fun r => !pp.2 r
      if mask.any id then some ((tp.1, pp.1), mask) else none

/-- The boundary rule of spec §8: min=0, max=10, inclusive_min, exclusive
max, numbers only. -/
def exBoundaryRule : TypeDictionary where
  number_allowed := true
  strings_allowed := .finite []
  nullable := false
  min := 0
  max := .fin 10
  inclusive_min := true
  inclusive_max := false
  must_be_int := false

/-- C7: a row is flagged by the type scan exactly when its value is invalid
under the declared rule; a null is valid iff nullable, a string iff the
wildcard or whitelist admits it, and the spec §8 boundary rule accepts 0 and
9.999 while rejecting 10 and -0.001. -/
theorem claim_C7_data_type_rule (F : Factory) (d : PanDat) :
    (∀ t frules f dt, (t, frules) ∈ F.data_types → (f, dt) ∈ frules →
      (∀ (i : Nat) (r : Row), (d t)[i]? = some r →
        (((d t).map fun rr => !valid_data dt (rr f))[i]? = some true ↔
          ¬ valid_data dt (r f) = true)) ∧
      ((((d t).map fun rr => !valid_data dt (rr f)).any id = true) →
        ((t, f), (d t).map fun rr => !valid_data dt (rr f)) ∈
          find_data_type_failures F d)) ∧
    (valid_data exBoundaryRule (Value.num 0) = true ∧
     valid_data exBoundaryRule (Value.num (9999 / 1000)) = true ∧
     valid_data exBoundaryRule (Value.num 10) = false ∧
     valid_data exBoundaryRule (Value.num (-1 / 1000)) = false) ∧
    (∀ dt : TypeDictionary, valid_data dt Value.null = dt.nullable) ∧
    (∀ (dt : TypeDictionary) (s : String), dt.strings_allowed = StringsAllowed.star →
      valid_data dt (Value.str s) = true) := by
  refine ⟨?_, by
      refine ⟨?_, ?_, ?_, ?_⟩ <;>
        simp only [valid_data, exBoundaryRule, QInf.gtQ, QInf.geQ] <;>
          norm_num, fun dt => rfl, ?_⟩
  · intro t frules f dt ht hf
    constructor
    · intro i r hr
      rw [List.getElem?_map, hr, Option.map_some', Option.some_inj]
      cases hv : valid_data dt (r f) <;> simp [hv]
    · intro hany
      rw [find_data_type_failures, List.mem_flatMap]
      refine ⟨(t, frules), ht, ?_⟩
      rw [List.mem_filterMap]
      refine ⟨(f, dt), hf, ?_⟩
      simp only
      rw [if_pos hany]
  · intro dt s hstar
    rw [valid_data, hstar]
/-- One-table schema carrying the boundary rule on field `v`. -/
def exTypedFactory : Factory where
  all_tables := ["m"]
  generic_tables := []
  primary_key_fields := [("m", ["id"])]
  data_fields := [("m", ["v"])]
  has_been_used := false
  data_types := [("m", [("v", exBoundaryRule)])]
  default_values := []
  data_row_predicates := []
  foreign_keys := []

/-- One row whose `v` is 10, rejected by the exclusive max of the boundary
rule. -/
def exTypedData : PanDat := fun t => if t = "m" then [exRowNum "v" 10] else []

theorem claim_C7_data_type_rule_witness :
    (("m", "v"), (exTypedData "m").map fun rr => !valid_data exBoundaryRule (rr "v")) ∈
      find_data_type_failures exTypedFactory exTypedData :=
  ((claim_C7_data_type_rule exTypedFactory exTypedData).1 "m" [("v", exBoundaryRule)]
      "v" exBoundaryRule (by decide) (by decide)).2 (by decide)
theorem any_mask_iff (l : Table) (q : Row → Bool) :
    ((l.map fun r => !q r).any id = true) ↔ ∃ r ∈ l, q r = false := by
  induction l with
  | nil => simp
  | cons r rs ih =>
    simp only [List.map_cons, List.any_cons, Bool.or_eq_true, ih]
    constructor
    · rintro (h | h)
      · exact ⟨r, List.mem_cons_self _ _, by revert h; cases q r <;> simp [id]⟩
      · obtain ⟨r', hr', h'⟩ := h
        exact ⟨r', List.mem_cons_of_mem _ hr', h'⟩
    · rintro ⟨r', hr', h'⟩
      rcases List.mem_cons.1 hr' with he | he
      · subst he
        exact Or.inl (by simp [id, h'])
      · exact Or.inr ⟨r', he, h'⟩

/-- C10: the report dictionaries of the three scans hold a key iff at least
one row fails the corresponding check; a rule, predicate or table with no
failing row is omitted entirely. -/
theorem claim_C10_keys_iff_failures (F : Factory) (d : PanDat) (keep : Keep) :
    (∀ t f, (∃ mask, ((t, f), mask) ∈ find_data_type_failures F d) ↔
      ∃ frules dt, (t, frules) ∈ F.data_types ∧ (f, dt) ∈ frules ∧
        ∃ r ∈ d t, valid_data dt (r f) = false) ∧
    (∀ t pn, (∃ mask, ((t, pn), mask) ∈ find_data_row_failures F d) ↔
      ∃ preds p, (t, preds) ∈ F.data_row_predicates ∧ (pn, p) ∈ preds ∧
        ∃ r ∈ d t, p r = false) ∧
    (∀ t, (∃ mask, (t, mask) ∈ find_duplicates F keep d) ↔
      t ∈ F.all_tables ∧ F.pkFields t ≠ [] ∧
        (dupMask keep ((d t).map fun r => (F.pkFields t).map r)).any id = true) := by
  refine ⟨?_, ?_, ?_⟩
  · intro t f
    constructor
    · rintro ⟨mask, hm⟩
      rw [find_data_type_failures, List.mem_flatMap] at hm
      obtain ⟨⟨t', frules⟩, htr, hfm⟩ := hm
      rw [List.mem_filterMap] at hfm
      obtain ⟨⟨f', dt⟩, hfdt, hsome⟩ := hfm
      simp only at hsome
      by_cases hany : ((d t').map fun r => !valid_data dt (r f')).any id = true
      · rw [if_pos hany, Option.some_inj] at hsome
        obtain ⟨hkey, _⟩ := Prod.mk.injEq .. ▸ hsome
        obtain ⟨ht, hf⟩ := Prod.mk.injEq .. ▸ hkey
        subst ht; subst hf
        obtain ⟨r, hr, hrf⟩ := (any_mask_iff (d t') _).1 hany
        exact ⟨frules, dt, htr, hfdt, r, hr, hrf⟩
      · rw [if_neg hany] at hsome
        exact absurd hsome (by simp)
    · rintro ⟨frules, dt, ht, hf, r, hr, hrf⟩
      have hany : ((d t).map fun rr => !valid_data dt (rr f)).any id = true :=
        (any_mask_iff (d t) _).2 ⟨r, hr, hrf⟩
      refine ⟨(d t).map fun rr => !valid_data dt (rr f), ?_⟩
      rw [find_data_type_failures, List.mem_flatMap]
      refine ⟨(t, frules), ht, ?_⟩
      rw [List.mem_filterMap]
      refine ⟨(f, dt), hf, ?_⟩
      simp only
      rw [if_pos hany]
  · intro t pn
    constructor
    · rintro ⟨mask, hm⟩
      rw [find_data_row_failures, List.mem_flatMap] at hm
      obtain ⟨⟨t', preds⟩, htr, hfm⟩ := hm
      rw [List.mem_filterMap] at hfm
      obtain ⟨⟨pn', p⟩, hpp, hsome⟩ := hfm
      simp only at hsome
      by_cases hany : ((d t').map fun r => !p r).any id = true
      · rw [if_pos hany, Option.some_inj] at hsome
        obtain ⟨hkey, _⟩ := Prod.mk.injEq .. ▸ hsome
        obtain ⟨ht, hf⟩ := Prod.mk.injEq .. ▸ hkey
        subst ht; subst hf
        obtain ⟨r, hr, hrf⟩ := (any_mask_iff (d t') _).1 hany
        exact ⟨preds, p, htr, hpp, r, hr, hrf⟩
      · rw [if_neg hany] at hsome
        exact absurd hsome (by simp)
    · rintro ⟨preds, p, ht, hp, r, hr, hrf⟩
      have hany : ((d t).map fun rr => !p rr).any id = true :=
        (any_mask_iff (d t) _).2 ⟨r, hr, hrf⟩
      refine ⟨(d t).map fun rr => !p rr, ?_⟩
      rw [find_data_row_failures, List.mem_flatMap]
      refine ⟨(t, preds), ht, ?_⟩
      rw [List.mem_filterMap]
      refine ⟨(pn, p), hp, ?_⟩
      simp only
      rw [if_pos hany]
  · intro t
    constructor
    · rintro ⟨mask, hm⟩
      rw [find_duplicates, List.mem_filterMap] at hm
      obtain ⟨t', ht', hsome⟩ := hm
      by_cases hpk : F.pkFields t' ≠ []
      · rw [if_pos hpk] at hsome
        simp only at hsome
        by_cases hany :
            (dupMask keep ((d t').map fun r => (F.pkFields t').map r)).any id = true
        · rw [if_pos hany, Option.some_inj] at hsome
          obtain ⟨ht, _⟩ := Prod.mk.injEq .. ▸ hsome
          subst ht
          exact ⟨ht', hpk, hany⟩
        · rw [if_neg hany] at hsome
          exact absurd hsome (by simp)
      · rw [if_neg hpk] at hsome
        exact absurd hsome (by simp)
    · rintro ⟨ht, hpk, hany⟩
      refine ⟨dupMask keep ((d t).map fun r => (F.pkFields t).map r), ?_⟩
      rw [find_duplicates, List.mem_filterMap]
      refine ⟨t, ht, ?_⟩
      rw [if_pos hpk]
      simp only
      rw [if_pos hany]
/-- Source `ticdat.utils.verify`: raise `TicDatError` (here: `Except.error`) when the
condition fails. -/
def verify (b : Prop) [Decidable b] (msg : String) : Except String Unit :=
  if b then .ok () else .error msg

/-- Set one key of a dictionary, keeping insertion order. -/
def setA {κ α : Type} [DecidableEq κ] (l : List (κ × α)) (k : κ) (v : α) :
    List (κ × α) :=
  match l with
  | [] => [(k, v)]
  | (k', v') :: rest => if k' = k then (k, v) :: rest else (k', v') :: setA rest k v

/-- Set a key of a nested dictionary (the `defaultdict(dict)` pattern
`self._data_types[table][field] = value`). -/
def setNested {α : Type} (l : List (String × List (String × α))) (t f : String)
    (v : α) : List (String × List (String × α)) :=
  match l with
  | [] => [(t, [(f, v)])]
  | (t', inner) :: rest =>
    if t' = t then (t, setA inner f v) :: rest else (t', inner) :: setNested rest t f v

/-- Delete a field key of a nested dictionary
(`del self._data_types[table][field]`). -/
def delNested {α : Type} (l : List (String × List (String × α))) (t f : String) :
    List (String × List (String × α)) :=
  l.map fun ti => if ti.1 = t then (ti.1, ti.2.filter fun p => p.1 ≠ f) else ti

/-- Source `set_data_type`, with every `verify` of the source in order (the checks
that Python needs on the raw `strings_allowed`/numeric arguments hold by
typing here). -/
def set_data_type (F : Factory) (table field : String) (number_allowed : Bool)
    (inclusive_min inclusive_max : Bool) (min : ℚ) (max : QInf)
    (must_be_int : Bool) (strings_allowed : StringsAllowed) (nullable : Bool) :
    Except String Factory := do
  verify (F.has_been_used = false)
    "The data types cannot be changed after a PanDatFactory has been used."
  verify (table ∈ F.all_tables) "Unrecognized table name"
  verify (table ∉ F.generic_tables) "Cannot set data type for generic table"
  verify (field ∈ F.dataFields table ++ F.pkFields table)
    "does not refer to a field for this table"
  if number_allowed then do
    verify (max.geMin min = true) "max cannot be smaller than min"
    pure { F with data_types := (setNested F.data_types table field
      ⟨true, strings_allowed, nullable, min, max, inclusive_min, inclusive_max,
        must_be_int⟩) }
  else
    pure { F with data_types := (setNested F.data_types table field
      ⟨false, strings_allowed, nullable, 0, .inf, true, true, false⟩) }

/-- Source `clear_data_type`: note the silent early return, placed BEFORE the
has-been-used check, when the field carries no type rule. -/
def clear_data_type (F : Factory) (table field : String) :
    Except String Factory := do
  if field ∉ (lookupL F.data_types table).map Prod.fst then
    pure F
  else do
    verify (F.has_been_used = false)
      "The data types cannot be changed after a PanDatFactory has been used."
    pure { F with data_types := delNested F.data_types table field }

/-- Smallest predicate name not yet taken
(`next(i for i in count() if i not in ...)`; the search range suffices by
pigeonhole). -/
def freshName (used : List Nat) : Nat :=
  (((List.range (used.length + 1)).filter fun i => i ∉ used)).headD 0

/-- Source `add_data_row_predicate`; passing no predicate deletes the named one
(still behind the has-been-used check). -/
def add_data_row_predicate (F : Factory) (table : String)
    (predicate : Option (Row → Bool)) (predicate_name : Option Nat) :
    Except String Factory := do
  verify (F.has_been_used = false)
    "The data row predicates cannot be changed after a PanDatFactory has been used."
  verify (table ∈ F.all_tables) "Unrecognized table name"
  match predicate with
  | Option.none =>
    match predicate_name with
    | Option.none => pure F
    | some pn =>
      pure { F with data_row_predicates :=
        F.data_row_predicates.map fun ti =>
          if ti.1 = table then (ti.1, ti.2.filter fun p => p.1 ≠ pn) else ti }
  | some p =>
    let pn := match predicate_name with
      | Option.none => freshName ((lookupL F.data_row_predicates table).map Prod.fst)
      | some n => n
    pure { F with data_row_predicates :=
      match F.data_row_predicates.find? fun ti => ti.1 == table with
      | Option.none => F.data_row_predicates ++ [(table, [(pn, p)])]
      | some _ => F.data_row_predicates.map fun ti =>
          if ti.1 = table then (ti.1, setA ti.2 pn p) else ti }

/-- Source `set_default_value`: the `acceptable_default` check of the source holds
for every `Value` of the model (number, string or null sentinel). -/
def set_default_value (F : Factory) (table field : String) (v : Value) :
    Except String Factory := do
  verify (F.has_been_used = false)
    "The default values cannot be changed after a PanDatFactory has been used."
  verify (table ∈ F.all_tables) "Unrecognized table name"
  verify (field ∈ F.dataFields table ++ F.pkFields table)
    "does not refer to a field for this table"
  pure { F with default_values := setNested F.default_values table field v }

/-- Source `set_default_values`: per-table verifies and updates interleaved exactly
as in the source loop. -/
def set_default_values (F : Factory)
    (tableDefaults : List (String × List (String × Value))) :
    Except String Factory := do
  verify (F.has_been_used = false)
    "The default values cannot be changed after a PanDatFactory has been used."
  tableDefaults.foldlM (fun acc kv => do
    verify (kv.1 ∈ acc.all_tables) "Unrecognized table name"
    verify (∀ f ∈ kv.2.map Prod.fst,
        f ∈ acc.dataFields kv.1 ++ acc.pkFields kv.1)
      "Default values should be a dictionary mapping field names to values"
    pure { acc with default_values :=
      (kv.2.foldl (fun dv fv => setNested dv kv.1 fv.1 fv.2) acc.default_values) })
    F

/-- The keys of a pair list in first-occurrence order. -/
def dictKeys : List (String × String) → List String → List String
  | [], _ => []
  | (k, _) :: rest, seen =>
    if k ∈ seen then dictKeys rest seen else k :: dictKeys rest (k :: seen)

/-- The last value bound to a key in a pair list. -/
def lastVal (ps : List (String × String)) (k : String) : String :=
  ps.foldl (fun acc p => if p.1 = k then p.2 else acc) ""

/-- Python dict comprehension over mapping pairs
(`{k:v for k,v in mappings}`): first-occurrence key order, last value wins. -/
def dictPairs (ps : List (String × String)) : List (String × String) :=
  (dictKeys ps []).map fun k => (k, lastVal ps k)

/-- Source `add_foreign_key`; the stored mapping set deduplicates exact repeats
(source: `self._foreign_keys[native, foreign].add(...)` on a `set`). -/
def add_foreign_key (F : Factory) (native_table foreign_table : String)
    (mappings : List (String × String)) : Except String Factory := do
  verify (F.has_been_used = false)
    "The foreign keys cannot be changed after a PanDatFactory has been used."
  verify (native_table ∈ F.all_tables) "not a table name"
  verify (native_table ∉ F.generic_tables) "is a generic table"
  verify (foreign_table ∈ F.all_tables) "not a table name"
  verify (foreign_table ∉ F.generic_tables) "is a generic table"
  verify (mappings ≠ []) "mappings needs to be a non empty list or a tuple"
  let ms := dictPairs mappings
  verify (∀ m ∈ ms, m.1 ∈ F.allFields native_table ∧ m.2 ∈ F.allFields foreign_table)
    "does not refer to one of the fields"
  let fk : FkDecl := ⟨native_table, foreign_table, ms⟩
  if fk ∈ F.foreign_keys then pure F
  else pure { F with foreign_keys := F.foreign_keys ++ [fk] }

/-- Source `clear_foreign_keys`: drop every foreign key, or those of one native
table. -/
def clear_foreign_keys (F : Factory) (native_table : Option String) :
    Except String Factory := do
  verify (F.has_been_used = false)
    "The foreign keys cannot be changed after a PanDatFactory has been used."
  verify (native_table = Option.none ∨ ∃ t ∈ F.all_tables, native_table = some t)
    "If provided, native_table should specify a table."
  match native_table with
  | Option.none => pure { F with foreign_keys := [] }
  | some nt => pure { F with foreign_keys := F.foreign_keys.filter fun fk =>
      fk.native ≠ nt }
/-- A raw table handed to the `PanDat` constructor: its column names and its
rows.  (The coercion of arbitrary Python objects through `DataFrame(...)` is
typed away; the column reordering the constructor performs does not change
row functions.) -/
structure RawTable where
  cols : List String
  rows : List Row

/-- Lookup into `init_tables`. -/
def lookupRaw (l : List (String × RawTable)) (t : String) : Option RawTable :=
  (l.find? fun p => p.1 == t).map Prod.snd

/-- The inner `PanDat.__init__`.  Its very first statement is
`superself._trigger_has_been_used()` — BEFORE any verify — so the returned
factory is sealed even when construction then fails; tables the caller does
not pass are materialized empty. -/
def PanDat_construct (F : Factory) (init_tables : List (String × RawTable)) :
    Factory × Except String PanDat :=
  ({ F with has_been_used := true },
   if ∀ p ∈ init_tables, p.1 ∈ F.all_tables then
     if ∀ t ∈ F.all_tables,
         ((lookupRaw init_tables t).all fun rt =>
           (F.allFields t).all fun f => decide (f ∈ rt.cols)) = true then
       .ok fun t =>
         match lookupRaw init_tables t with
         | Option.none => []
         | some rt => rt.rows
     else .error "(table, field) pairs missing from the data"
   else .error "Unexpected table name")

/-- C5 counterexample: the seal is triggered by ANY construction attempt, not
only a successful one — `_trigger_has_been_used()` is the first statement of
`PanDat.__init__`, before its verifies.  A construction naming an undeclared
table fails, yet afterwards `set_data_type` is refused although no Data
Container was ever built.  Moreover `clear_data_type` on a sealed schema is a
silent no-op (not a failure) when the field carries no type rule, because its
early return precedes the has-been-used check. -/
theorem claim_C5_freeze_counterexample :
    ((PanDat_construct exFactory [("nosuch", ⟨[], []⟩)]).2).isOk = false ∧
    (PanDat_construct exFactory [("nosuch", ⟨[], []⟩)]).1.has_been_used = true ∧
    (set_data_type (PanDat_construct exFactory [("nosuch", ⟨[], []⟩)]).1
      "orders" "customer_id" true true false 0 (.fin 10) false .star
      false).isOk = false ∧
    exFactory.has_been_used = false ∧
    clear_data_type { exFactory with has_been_used := true } "orders" "customer_id" =
      .ok { exFactory with has_been_used := true } :=
  ⟨rfl, rfl, rfl, rfl, rfl⟩
/-- C5 (amended): the schema is a two-state machine whose one-way transition
is triggered by the FIRST CONSTRUCTION ATTEMPT of a Data Container,
successful or not; while unsealed every mutator may succeed (witnessed on the
example schema); once sealed every mutator is refused without touching the
schema — except `clear_data_type` on a field carrying no type rule, whose
early return makes it a silent unchanged no-op. -/
theorem claim_C5_freeze_amended (F : Factory) :
    (∀ init_tables, (PanDat_construct F init_tables).1.has_been_used = true) ∧
    (F.has_been_used = true →
      (∀ t f na imin imax mn mx mbi sa nb,
        (set_data_type F t f na imin imax mn mx mbi sa nb).isOk = false) ∧
      (∀ t p pn, (add_data_row_predicate F t p pn).isOk = false) ∧
      (∀ t f v, (set_default_value F t f v).isOk = false) ∧
      (∀ tds, (set_default_values F tds).isOk = false) ∧
      (∀ nt ft ms, (add_foreign_key F nt ft ms).isOk = false) ∧
      (∀ nt, (clear_foreign_keys F nt).isOk = false) ∧
      (∀ t f, f ∈ (lookupL F.data_types t).map Prod.fst →
        (clear_data_type F t f).isOk = false) ∧
      (∀ t f, f ∉ (lookupL F.data_types t).map Prod.fst →
        clear_data_type F t f = .ok F)) ∧
    ((set_data_type exFactory "orders" "customer_id" true true false 0 (.fin 10)
        false .star false).isOk = true ∧
     (clear_data_type exFactory "orders" "customer_id").isOk = true ∧
     (add_data_row_predicate exFactory "orders" (some fun _ => true)
        Option.none).isOk = true ∧
     (set_default_value exFactory "orders" "customer_id" (Value.num 0)).isOk = true ∧
     (set_default_values exFactory
        [("orders", [("customer_id", Value.num 0)])]).isOk = true ∧
     (add_foreign_key exFactory "orders" "customers"
        [("customer_id", "id")]).isOk = true ∧
     (clear_foreign_keys exFactory (some "orders")).isOk = true) := by
  refine ⟨fun _ => rfl, ?_, by exact ⟨rfl, rfl, rfl, rfl, rfl, rfl, rfl⟩⟩
  intro hused
  refine ⟨?_, ?_, ?_, ?_, ?_, ?_, ?_, ?_⟩
  · intro t f na imin imax mn mx mbi sa nb
    simp [set_data_type, verify, hused, Bind.bind, Except.bind, Except.isOk, Except.toBool]
  · intro t p pn
    simp [add_data_row_predicate, verify, hused, Bind.bind, Except.bind, Except.isOk, Except.toBool]
  · intro t f v
    simp [set_default_value, verify, hused, Bind.bind, Except.bind, Except.isOk, Except.toBool]
  · intro tds
    simp [set_default_values, verify, hused, Bind.bind, Except.bind, Except.isOk, Except.toBool]
  · intro nt ft ms
    simp [add_foreign_key, verify, hused, Bind.bind, Except.bind, Except.isOk, Except.toBool]
  · intro nt
    simp [clear_foreign_keys, verify, hused, Bind.bind, Except.bind, Except.isOk, Except.toBool]
  · intro t f hf
    simp [clear_data_type, verify, hused, hf, Bind.bind, Except.bind, Except.isOk, Except.toBool]
  · intro t f hf
    simp [clear_data_type, verify, hused, hf, Bind.bind, Except.bind, Pure.pure,
      Except.pure]

theorem claim_C5_freeze_amended_witness :
    ((set_data_type { exFactory with has_been_used := true } "orders" "customer_id"
        true true false 0 (.fin 10) false .star false).isOk = false) ∧
    (clear_data_type { exFactory with has_been_used := true } "orders" "zzz" =
      .ok { exFactory with has_been_used := true }) :=
  ⟨((claim_C5_freeze_amended { exFactory with has_been_used := true }).2.1
      rfl).1 "orders" "customer_id" true true false 0 (.fin 10) false .star false,
   ((claim_C5_freeze_amended { exFactory with has_been_used := true }).2.1
      rfl).2.2.2.2.2.2.2 "orders" "zzz" (by decide)⟩
/-- pandas boolean indexing `table[rows]`: keep the rows whose mask entry is
`true`. -/
def selectByMask (rows : Table) (mask : List Bool) : Table :=
  (rows.zip mask).filterMap fun rb => if rb.2 then some rb.1 else none

/-- The public `find_foreign_key_failures` (as_table flavour): each failing
foreign key mapped to the failing subset of its native table. -/
def find_foreign_key_failures (F : Factory) (d : PanDat) :
    List (FkDecl × Table) :=
  (find_foreign_key_failure_rows F d).map fun e =>
    (e.1, selectByMask (d e.1.native) e.2)

/-- Scan `find_data_type_failures` as a state transformer on the dataset argument:
the source never assigns to a `pan_dat` attribute (it copies tables before
touching them), so the post-call state is the argument itself. -/
def find_data_type_failures_state (F : Factory) (d : PanDat) :
    List ((String × String) × List Bool) × PanDat :=
  (find_data_type_failures F d, d)

/-- Scan `find_data_row_failures` as a state transformer: no attribute of
`pan_dat` is assigned. -/
def find_data_row_failures_state (F : Factory) (d : PanDat) :
    List ((String × Nat) × List Bool) × PanDat :=
  (find_data_row_failures F d, d)

/-- Scan `find_duplicates` as a state transformer: no attribute of `pan_dat` is
assigned. -/
def find_duplicates_state (F : Factory) (keep : Keep) (d : PanDat) :
    List (String × List Bool) × PanDat :=
  (find_duplicates F keep d, d)

/-- Scan `find_foreign_key_failures` as a state transformer: the join is performed
on deep copies (`child = ....copy(deep=True)`, `parent.drop_duplicates(...,
inplace=False).copy(...)`), never on the stored tables. -/
def find_foreign_key_failures_state (F : Factory) (d : PanDat) :
    List (FkDecl × Table) × PanDat :=
  (find_foreign_key_failures F d, d)

/-- The customers-only dataset: already clean for the example schema. -/
def exCustOnlyData : PanDat := fun t => if t = "customers" then exCustomers else []

/-- C9: the four scans leave every table of the dataset unchanged (same rows,
same values, same order), so re-running foreign-key detection on the
unmodified dataset returns identical results, and cascading removal is a
no-op on an already-clean dataset; `remove_foreign_key_failures` alone
mutates its argument (shown on the example dataset, which loses its orphaned
row). -/
theorem claim_C9_scans_pure (F : Factory) (keep : Keep) :
    (∀ d, (find_data_type_failures_state F d).2 = d) ∧
    (∀ d, (find_data_row_failures_state F d).2 = d) ∧
    (∀ d, (find_duplicates_state F keep d).2 = d) ∧
    (∀ d, (find_foreign_key_failures_state F d).2 = d) ∧
    (∀ d, find_foreign_key_failures F ((find_foreign_key_failures_state F d).2) =
      find_foreign_key_failures F d) ∧
    (∀ d, FkClean F d → remove_foreign_key_failures F d = d) ∧
    remove_foreign_key_failures exFactory exData ≠ exData := by
  have hnoop : ∀ (F' : Factory) (d : PanDat), FkClean F' d →
      remove_foreign_key_failures F' d = d := by
    intro F' d hc
    rw [remove_foreign_key_failures.eq_def]
    split
    · rfl
    · next e es heq =>
      rw [FkClean] at hc
      rw [hc] at heq
      exact absurd heq (by simp)
  refine ⟨fun d => rfl, fun d => rfl, fun d => rfl, fun d => rfl, fun d => rfl,
    fun d => hnoop F d, ?_⟩
  have h1 : find_foreign_key_failure_rows exFactory exData =
      [(exFk, [false, true, false])] := by decide
  have hstep : remove_foreign_key_failures exFactory exData =
      remove_foreign_key_failures exFactory
        (removeRows exData exFk.native [false, true, false]) := by
    rw [remove_foreign_key_failures.eq_def]
    split
    · next heq =>
      rw [h1] at heq
      exact absurd heq (by simp)
    · next e es heq =>
      rw [h1] at heq
      injection heq with he hes
      rw [← he]
  have h2 : remove_foreign_key_failures exFactory
      (removeRows exData exFk.native [false, true, false]) =
      removeRows exData exFk.native [false, true, false] :=
    hnoop exFactory _ (by rw [FkClean]; decide)
  intro hcontra
  rw [hstep, h2] at hcontra
  have hords := congrFun hcontra "orders"
  exact absurd (congrArg List.length hords) (by decide)

theorem claim_C9_scans_pure_witness :
    remove_foreign_key_failures exFactory exCustOnlyData = exCustOnlyData :=
  (claim_C9_scans_pure exFactory Keep.first).2.2.2.2.2.1 exCustOnlyData
    (by rw [FkClean]; decide)
